import Mathlib

/-!
Shallow embedding of the `FractionalRealEstate` Algorand smart contract
(`src/unnamed/part_000`) and proofs of the specification claims.

Addresses (account identities) are modelled as `Nat`; byte strings as
`List Nat`; AVM `uint64` arithmetic failures (overflow panics) as `none`
results.  Each public contract method becomes an `Option`-returning
function over an explicit `ChainState`; `none` models the whole call
aborting with no state change (AVM whole-call atomicity).
-/

namespace FractionalRealEstate

/-- `2 ^ 64`; AVM uint64 arithmetic panics (whole call fails) when a
result would reach this bound. -/
def U64 : Nat := 2 ^ 64

/-- `Global.zeroAddress`. -/
def zeroAddress : Nat := 0

/-- A `gtxn.PaymentTxn` as inspected by the contract. -/
structure PaymentTxn where
  amount : Nat
  sender : Nat
  receiver : Nat
  closeRemainderTo : Nat
  rekeyTo : Nat
deriving DecidableEq, Repr

/-- The `PropertyStruct` box value. -/
structure PropertyStruct where
  address : List Nat
  totalShares : Nat
  availableShares : Nat
  pricePerShare : Nat
  propertyAssetId : Nat
  ownerAddress : Nat
deriving DecidableEq, Repr

/-- Parameters of an ASA created by `itxn.assetConfig`. -/
structure AssetParams where
  assetName : List Nat
  unitName : List Nat
  total : Nat
  decimals : Nat
  manager : Nat
  reserve : Nat
deriving DecidableEq, Repr

/-- Inner-transaction effects emitted by the contract (asset transfers
and payments submitted via `itxn.submitGroup`). -/
inductive Effect where
  | assetTransfer (assetId receiver amount : Nat)
  | pay (receiver amount : Nat)
deriving DecidableEq, Repr

/-- Ledger state visible to the contract: the `listedProperties` BoxMap,
the set of created assets, the app account's asset holdings (custody),
the emitted inner transactions, and the next fresh asset id. -/
structure ChainState where
  listedProperties : List (Nat × PropertyStruct)
  assets : List (Nat × AssetParams)
  custody : List (Nat × Nat)
  effects : List Effect
  nextAssetId : Nat
deriving DecidableEq, Repr

/-- Keyed lookup in an association list (BoxMap read / existence check). -/
def alookup {α : Type} : List (Nat × α) → Nat → Option α
  | [], _ => none
  | (k, v) :: rest, key => if k = key then some v else alookup rest key

/-- Keyed write in an association list (BoxMap write): replaces the first
binding of the key, or appends a new one. -/
def aset {α : Type} : List (Nat × α) → Nat → α → List (Nat × α)
  | [], k, v => [(k, v)]
  | (k', v') :: rest, k, v =>
      if k' = k then (k, v) :: rest else (k', v') :: aset rest k v

/-- Keyed delete in an association list (BoxMap delete). -/
def aerase {α : Type} : List (Nat × α) → Nat → List (Nat × α)
  | [], _ => []
  | (k', v') :: rest, k =>
      if k' = k then aerase rest k else (k', v') :: aerase rest k

/-- Box MBR for one property record:
`2500 + 400 * (boxNameLen + boxValueLen)` with
box name `'properties' (10) + uint64 key (8) = 18` bytes and box value
`68 + propertyAddress length` bytes (lines 45-53 of the source). -/
def boxMbrCost (propertyAddress : List Nat) : Nat :=
  2500 + 400 * (18 + 68 + propertyAddress.length)

/-- `createPropertyAsset` (private): mints the ASA backing a listing via
`itxn.assetConfig`.  Asset name is the address truncated to 32 bytes,
unit name `'PROP'` (bytes 80,82,79,80), supply `shares`, zero decimals,
manager and reserve both the app account.  The creating account (the app)
holds the whole supply, recorded in `custody`. -/
def createPropertyAsset (appAddr : Nat) (propertyAddress : List Nat)
    (shares : Nat) (st : ChainState) : Nat × ChainState :=
  (st.nextAssetId,
   { st with
     assets := aset st.assets st.nextAssetId
       { assetName := propertyAddress.take 32
         unitName := [80, 82, 79, 80]
         total := shares
         decimals := 0
         manager := appAddr
         reserve := appAddr }
     custody := aset st.custody st.nextAssetId shares
     nextAssetId := st.nextAssetId + 1 })

/-- `createPropertyListing`: asserts `shares > 0`, `pricePerShare > 0`,
computes the box MBR (failing, as the AVM does, if the uint64 arithmetic
would overflow), asserts the MBR payment amount, receiver and sender,
mints the ASA and stores the new `PropertyStruct` keyed by the asset id,
returning that id.  `none` models the whole call aborting. -/
def createPropertyListing (caller appAddr : Nat) (st : ChainState)
    (mbrPayment : PaymentTxn) (propertyAddress : List Nat)
    (shares pricePerShare : Nat) : Option (Nat × ChainState) :=
  if shares = 0 then none
  else if pricePerShare = 0 then none
  else if U64 ≤ boxMbrCost propertyAddress then none
  else if mbrPayment.amount < boxMbrCost propertyAddress then none
  else if mbrPayment.receiver = appAddr ∧ mbrPayment.sender = caller then
    let r := createPropertyAsset appAddr propertyAddress shares st
    let prop : PropertyStruct :=
      { address := propertyAddress
        totalShares := shares
        availableShares := shares
        pricePerShare := pricePerShare
        propertyAssetId := r.1
        ownerAddress := caller }
    some (r.1, { r.2 with listedProperties := aset r.2.listedProperties r.1 prop })
  else none

/-- `updateAvailableShares` (private): re-reads the box value and writes
it back with only `availableShares` replaced. -/
def updateAvailableShares (st : ChainState) (propertyId newAvailableShares : Nat) :
    Option ChainState :=
  match alookup st.listedProperties propertyId with
  | none => none
  | some propertyStruct =>
      some { st with
             listedProperties := aset st.listedProperties propertyId
               { propertyStruct with availableShares := newAvailableShares } }

/-- `purchaseFromLister`: asserts `shares > 0` and record existence,
checks the payment against `shares * pricePerShare` (the uint64 multiply
panics on overflow, modelled as `none`), the app as receiver, the caller
as sender, and zero close-remainder-to / rekey-to; asserts
`shares ≤ availableShares`; then atomically transfers `shares` units of
the ASA from custody to the caller (failing if custody cannot cover it),
forwards the payment to the owner, and decrements `availableShares`. -/
def purchaseFromLister (caller appAddr : Nat) (st : ChainState)
    (propertyId shares : Nat) (payment : PaymentTxn) : Option (Bool × ChainState) :=
  if shares = 0 then none
  else
    match alookup st.listedProperties propertyId with
    | none => none
    | some property =>
      if U64 ≤ shares * property.pricePerShare then none
      else if payment.amount = shares * property.pricePerShare
            ∧ payment.receiver = appAddr
            ∧ payment.sender = caller
            ∧ payment.closeRemainderTo = zeroAddress
            ∧ payment.rekeyTo = zeroAddress then
        if shares ≤ property.availableShares then
          match alookup st.custody property.propertyAssetId with
          | none => none
          | some bal =>
            if shares ≤ bal then
              let st1 : ChainState :=
                { st with
                  custody := aset st.custody property.propertyAssetId (bal - shares)
                  effects := st.effects ++
                    [Effect.assetTransfer property.propertyAssetId caller shares,
                     Effect.pay property.ownerAddress payment.amount] }
              match updateAvailableShares st1 propertyId
                      (property.availableShares - shares) with
              | none => none
              | some st2 => some (true, st2)
            else none
        else none
      else none

/-- `delistProperty`: asserts record existence, that the caller is the
recorded owner, and that no shares have been sold
(`availableShares = totalShares`); then deletes the box. -/
def delistProperty (caller : Nat) (st : ChainState) (propertyId : Nat) :
    Option ChainState :=
  match alookup st.listedProperties propertyId with
  | none => none
  | some property =>
    if caller = property.ownerAddress then
      if property.availableShares = property.totalShares then
        some { st with listedProperties := aerase st.listedProperties propertyId }
      else none
    else none

/-- `getPropertyInfo` (readonly): asserts record existence and returns
the stored record; it writes nothing. -/
def getPropertyInfo (st : ChainState) (propertyId : Nat) : Option PropertyStruct :=
  match alookup st.listedProperties propertyId with
  | none => none
  | some property => some property

/-- One purchase request against a fixed property: the caller identity,
the requested share count and the accompanying payment transaction. -/
structure PurchaseReq where
  caller : Nat
  shares : Nat
  payment : PaymentTxn
deriving DecidableEq, Repr

/-- Runs a sequence of `purchaseFromLister` calls against one property.
A failed call leaves the state unchanged (the AVM discards the whole
call).  Returns the final state and the sum of successfully purchased
shares. -/
def runPurchases (appAddr pid : Nat) : ChainState → List PurchaseReq → ChainState × Nat
  | st, [] => (st, 0)
  | st, r :: rest =>
    match purchaseFromLister r.caller appAddr st pid r.shares r.payment with
    | some (_, st') =>
        let rec' := runPurchases appAddr pid st' rest
        (rec'.1, r.shares + rec'.2)
    | none => runPurchases appAddr pid st rest

/-! ### Association-list lemmas -/

theorem alookup_aset_self {α : Type} (l : List (Nat × α)) (k : Nat) (v : α) :
    alookup (aset l k v) k = some v := by
  induction l with
  | nil => simp [aset, alookup]
  | cons kv rest ih =>
    obtain ⟨k', v'⟩ := kv
    by_cases h : k' = k
    · simp [aset, h, alookup]
    · simp [aset, h, alookup, ih]

theorem alookup_aset_ne {α : Type} (l : List (Nat × α)) (k k' : Nat) (v : α)
    (h : k' ≠ k) : alookup (aset l k v) k' = alookup l k' := by
  have hk : ¬ k = k' := fun hh => h hh.symm
  induction l with
  | nil => simp [aset, alookup, hk]
  | cons kv rest ih =>
    obtain ⟨k0, v0⟩ := kv
    by_cases h0 : k0 = k
    · subst h0
      simp [aset, alookup, hk]
    · simp only [aset, if_neg h0, alookup]
      by_cases h1 : k0 = k'
      · simp [h1]
      · simp [h1, ih]

theorem alookup_aerase_self {α : Type} (l : List (Nat × α)) (k : Nat) :
    alookup (aerase l k) k = none := by
  induction l with
  | nil => simp [aerase, alookup]
  | cons kv rest ih =>
    obtain ⟨k0, v0⟩ := kv
    by_cases h0 : k0 = k
    · simpa [aerase, h0] using ih
    · simpa [aerase, alookup, h0] using ih

theorem alookup_aerase_ne {α : Type} (l : List (Nat × α)) (k k' : Nat)
    (h : k' ≠ k) : alookup (aerase l k) k' = alookup l k' := by
  have hk : ¬ k = k' := fun hh => h hh.symm
  induction l with
  | nil => simp [aerase, alookup]
  | cons kv rest ih =>
    obtain ⟨k0, v0⟩ := kv
    by_cases h0 : k0 = k
    · subst h0
      simpa [aerase, alookup, hk] using ih
    · by_cases h1 : k0 = k'
      · simp [aerase, alookup, h0, h1, h]
      · simpa [aerase, alookup, h0, h1] using ih

/-! ### Characterization of the operations -/

theorem updateAvailableShares_eq (st : ChainState) (pid n : Nat) (p : PropertyStruct)
    (hp : alookup st.listedProperties pid = some p) :
    updateAvailableShares st pid n =
      some { st with
             listedProperties :=
               aset st.listedProperties pid { p with availableShares := n } } := by
  unfold updateAvailableShares
  rw [hp]

theorem purchaseFromLister_some_spec
    (caller appAddr pid shares : Nat) (payment : PaymentTxn)
    (st st' : ChainState) (b : Bool) (p : PropertyStruct)
    (hp : alookup st.listedProperties pid = some p)
    (h : purchaseFromLister caller appAddr st pid shares payment = some (b, st')) :
    0 < shares ∧
    shares * p.pricePerShare < U64 ∧
    payment.amount = shares * p.pricePerShare ∧
    payment.receiver = appAddr ∧
    payment.sender = caller ∧
    payment.closeRemainderTo = zeroAddress ∧
    payment.rekeyTo = zeroAddress ∧
    shares ≤ p.availableShares ∧
    b = true ∧
    st'.listedProperties =
      aset st.listedProperties pid { p with availableShares := p.availableShares - shares } ∧
    (∃ bal, alookup st.custody p.propertyAssetId = some bal ∧ shares ≤ bal ∧
      st'.custody = aset st.custody p.propertyAssetId (bal - shares)) ∧
    st'.effects = st.effects ++
      [Effect.assetTransfer p.propertyAssetId caller shares,
       Effect.pay p.ownerAddress payment.amount] ∧
    st'.assets = st.assets ∧
    st'.nextAssetId = st.nextAssetId := by
  simp only [purchaseFromLister, hp] at h
  split at h
  · cases h
  next hsh =>
  split at h
  · cases h
  next hof =>
  split at h
  next hpay =>
    split at h
    next hav =>
      split at h
      · cases h
      next bal hbal =>
      split at h
      next hbalge =>
        rw [updateAvailableShares_eq
          { st with
            custody := aset st.custody p.propertyAssetId (bal - shares)
            effects := st.effects ++
              [Effect.assetTransfer p.propertyAssetId caller shares,
               Effect.pay p.ownerAddress payment.amount] }
          pid (p.availableShares - shares) p hp] at h
        simp only [Option.some.injEq, Prod.mk.injEq] at h
        obtain ⟨hb, hst⟩ := h
        subst hst
        refine ⟨Nat.pos_of_ne_zero hsh, Nat.lt_of_not_le hof, hpay.1, hpay.2.1,
          hpay.2.2.1, hpay.2.2.2.1, hpay.2.2.2.2, hav, hb.symm, rfl,
          ⟨bal, hbal, hbalge, rfl⟩, rfl, rfl, rfl⟩
      · cases h
    · cases h
  · cases h

theorem purchaseFromLister_none_of_payment_violation
    (caller appAddr pid shares : Nat) (payment : PaymentTxn)
    (st : ChainState) (p : PropertyStruct)
    (hp : alookup st.listedProperties pid = some p)
    (hviol : payment.amount ≠ shares * p.pricePerShare ∨ payment.receiver ≠ appAddr ∨
      payment.sender ≠ caller ∨ payment.closeRemainderTo ≠ zeroAddress ∨
      payment.rekeyTo ≠ zeroAddress) :
    purchaseFromLister caller appAddr st pid shares payment = none := by
  cases hr : purchaseFromLister caller appAddr st pid shares payment with
  | none => rfl
  | some r =>
    obtain ⟨b, st'⟩ := r
    have hs := purchaseFromLister_some_spec caller appAddr pid shares payment st st' b p hp hr
    rcases hviol with hv | hv | hv | hv | hv
    · exact absurd hs.2.2.1 hv
    · exact absurd hs.2.2.2.1 hv
    · exact absurd hs.2.2.2.2.1 hv
    · exact absurd hs.2.2.2.2.2.1 hv
    · exact absurd hs.2.2.2.2.2.2.1 hv

theorem purchaseFromLister_none_of_conflict
    (caller appAddr pid shares : Nat) (payment : PaymentTxn)
    (st : ChainState) (p : PropertyStruct)
    (hp : alookup st.listedProperties pid = some p)
    (hlt : p.availableShares < shares) :
    purchaseFromLister caller appAddr st pid shares payment = none := by
  cases hr : purchaseFromLister caller appAddr st pid shares payment with
  | none => rfl
  | some r =>
    obtain ⟨b, st'⟩ := r
    have hs := purchaseFromLister_some_spec caller appAddr pid shares payment st st' b p hp hr
    exact absurd hs.2.2.2.2.2.2.2.1 (Nat.not_le_of_lt hlt)

theorem purchaseFromLister_none_of_overflow
    (caller appAddr pid shares : Nat) (payment : PaymentTxn)
    (st : ChainState) (p : PropertyStruct)
    (hp : alookup st.listedProperties pid = some p)
    (hof : U64 ≤ shares * p.pricePerShare) :
    purchaseFromLister caller appAddr st pid shares payment = none := by
  cases hr : purchaseFromLister caller appAddr st pid shares payment with
  | none => rfl
  | some r =>
    obtain ⟨b, st'⟩ := r
    have hs := purchaseFromLister_some_spec caller appAddr pid shares payment st st' b p hp hr
    exact absurd hs.2.1 (Nat.not_lt_of_le hof)

theorem createPropertyListing_some_spec
    (caller appAddr : Nat) (st : ChainState) (mbrPayment : PaymentTxn)
    (addr : List Nat) (shares price : Nat) (pid : Nat) (st' : ChainState)
    (h : createPropertyListing caller appAddr st mbrPayment addr shares price =
      some (pid, st')) :
    shares ≠ 0 ∧ price ≠ 0 ∧ boxMbrCost addr < U64 ∧
    boxMbrCost addr ≤ mbrPayment.amount ∧
    mbrPayment.receiver = appAddr ∧ mbrPayment.sender = caller ∧
    pid = st.nextAssetId ∧
    st'.listedProperties = aset st.listedProperties pid
      { address := addr, totalShares := shares, availableShares := shares,
        pricePerShare := price, propertyAssetId := pid, ownerAddress := caller } ∧
    st'.assets = aset st.assets pid
      { assetName := addr.take 32, unitName := [80, 82, 79, 80], total := shares,
        decimals := 0, manager := appAddr, reserve := appAddr } ∧
    st'.custody = aset st.custody pid shares ∧
    st'.effects = st.effects ∧
    st'.nextAssetId = st.nextAssetId + 1 := by
  simp only [createPropertyListing, createPropertyAsset] at h
  split at h
  · cases h
  next hsh =>
  split at h
  · cases h
  next hpr =>
  split at h
  · cases h
  next hof =>
  split at h
  · cases h
  next hamt =>
  split at h
  next hpay =>
    simp only [Option.some.injEq, Prod.mk.injEq] at h
    obtain ⟨hpid, hst⟩ := h
    subst hst
    subst hpid
    exact ⟨hsh, hpr, Nat.lt_of_not_le hof, Nat.le_of_not_lt hamt,
      hpay.1, hpay.2, rfl, rfl, rfl, rfl, rfl, rfl⟩
  · cases h

theorem createPropertyListing_some_of
    (caller appAddr : Nat) (st : ChainState) (mbrPayment : PaymentTxn)
    (addr : List Nat) (shares price : Nat)
    (hsh : shares ≠ 0) (hpr : price ≠ 0) (hof : boxMbrCost addr < U64)
    (hamt : boxMbrCost addr ≤ mbrPayment.amount)
    (hrecv : mbrPayment.receiver = appAddr) (hsend : mbrPayment.sender = caller) :
    ∃ r, createPropertyListing caller appAddr st mbrPayment addr shares price = some r := by
  unfold createPropertyListing
  rw [if_neg hsh, if_neg hpr, if_neg (Nat.not_le_of_lt hof),
    if_neg (Nat.not_lt_of_le hamt), if_pos ⟨hrecv, hsend⟩]
  exact ⟨_, rfl⟩

theorem createPropertyListing_none_of_zero
    (caller appAddr : Nat) (st : ChainState) (mbrPayment : PaymentTxn)
    (addr : List Nat) (shares price : Nat)
    (h : shares = 0 ∨ price = 0) :
    createPropertyListing caller appAddr st mbrPayment addr shares price = none := by
  unfold createPropertyListing
  rcases h with h | h
  · rw [if_pos h]
  · by_cases hsh : shares = 0
    · rw [if_pos hsh]
    · rw [if_neg hsh, if_pos h]

theorem createPropertyListing_none_of_underpay
    (caller appAddr : Nat) (st : ChainState) (mbrPayment : PaymentTxn)
    (addr : List Nat) (shares price : Nat)
    (hlt : mbrPayment.amount < boxMbrCost addr) :
    createPropertyListing caller appAddr st mbrPayment addr shares price = none := by
  cases hr : createPropertyListing caller appAddr st mbrPayment addr shares price with
  | none => rfl
  | some r =>
    obtain ⟨pid, st'⟩ := r
    have hs := createPropertyListing_some_spec caller appAddr st mbrPayment addr
      shares price pid st' hr
    exact absurd hs.2.2.2.1 (Nat.not_le_of_lt hlt)

theorem delistProperty_some_spec
    (caller pid : Nat) (st st' : ChainState)
    (h : delistProperty caller st pid = some st') :
    ∃ p, alookup st.listedProperties pid = some p ∧ caller = p.ownerAddress ∧
      p.availableShares = p.totalShares ∧
      st' = { st with listedProperties := aerase st.listedProperties pid } := by
  unfold delistProperty at h
  split at h
  · cases h
  next p hp =>
  split at h
  next hown =>
    split at h
    next hav =>
      simp only [Option.some.injEq] at h
      exact ⟨p, hp, hown, hav, h.symm⟩
    · cases h
  · cases h

theorem delistProperty_some_of
    (caller pid : Nat) (st : ChainState) (p : PropertyStruct)
    (hp : alookup st.listedProperties pid = some p)
    (hown : caller = p.ownerAddress)
    (hav : p.availableShares = p.totalShares) :
    delistProperty caller st pid =
      some { st with listedProperties := aerase st.listedProperties pid } := by
  simp only [delistProperty, hp]
  rw [if_pos hown, if_pos hav]

theorem runPurchases_spec (appAddr pid : Nat) (reqs : List PurchaseReq) :
    ∀ (st : ChainState) (p : PropertyStruct),
      alookup st.listedProperties pid = some p →
      ∃ pN, alookup (runPurchases appAddr pid st reqs).1.listedProperties pid = some pN ∧
        pN.totalShares = p.totalShares ∧
        pN.availableShares + (runPurchases appAddr pid st reqs).2 = p.availableShares := by
  induction reqs with
  | nil =>
    intro st p hp
    exact ⟨p, by simpa [runPurchases] using hp, rfl, rfl⟩
  | cons r rest ih =>
    intro st p hp
    cases hr : purchaseFromLister r.caller appAddr st pid r.shares r.payment with
    | none =>
      simp only [runPurchases, hr]
      exact ih st p hp
    | some res =>
      obtain ⟨b, st'⟩ := res
      obtain ⟨hpos, hof, hamt, hrecv, hsend, hclose, hrekey, hle, hb, hlp, hcust,
        heff, hassets, hnext⟩ :=
        purchaseFromLister_some_spec r.caller appAddr pid r.shares r.payment st st' b p hp hr
      have hp' : alookup st'.listedProperties pid =
          some { p with availableShares := p.availableShares - r.shares } := by
        rw [hlp]
        exact alookup_aset_self _ _ _
      obtain ⟨pN, h1, h2, h3⟩ := ih st' _ hp'
      refine ⟨pN, ?_, ?_, ?_⟩
      · simpa [runPurchases, hr] using h1
      · simpa using h2
      · simp only [runPurchases, hr]
        simp only [PropertyStruct.mk.injEq] at h3 ⊢
        omega

/-- C1: every successful `purchaseFromLister` call decrements the record's
`availableShares` by exactly the purchased `shares`; a call requesting more
than `availableShares` fails (no successor state is produced, so nothing
changes); and along any sequence of purchase calls against one record the
invariant `availableShares ≤ totalShares` holds after every committed call
and the sum of the successfully purchased shares never exceeds the record's
initial `totalShares`. -/
theorem purchase_sequence_invariant
    (appAddr pid : Nat) (st0 : ChainState) (p0 : PropertyStruct)
    (reqs : List PurchaseReq)
    (h0 : alookup st0.listedProperties pid = some p0)
    (hinv : p0.availableShares ≤ p0.totalShares) :
    (∀ caller shares payment st b st' p,
        alookup st.listedProperties pid = some p →
        purchaseFromLister caller appAddr st pid shares payment = some (b, st') →
        shares ≤ p.availableShares ∧
        alookup st'.listedProperties pid =
          some { p with availableShares := p.availableShares - shares }) ∧
    (∀ caller shares payment st p,
        alookup st.listedProperties pid = some p →
        p.availableShares < shares →
        purchaseFromLister caller appAddr st pid shares payment = none) ∧
    (∃ pN, alookup (runPurchases appAddr pid st0 reqs).1.listedProperties pid = some pN ∧
        pN.totalShares = p0.totalShares ∧
        pN.availableShares + (runPurchases appAddr pid st0 reqs).2 = p0.availableShares ∧
        pN.availableShares ≤ pN.totalShares) ∧
    (runPurchases appAddr pid st0 reqs).2 ≤ p0.totalShares := by
  obtain ⟨pN, h1, h2, h3⟩ := runPurchases_spec appAddr pid reqs st0 p0 h0
  refine ⟨?_, ?_, ⟨pN, h1, h2, h3, ?_⟩, ?_⟩
  · intro caller shares payment st b st' p hp hcall
    obtain ⟨hpos, hof, hamt, hrecv, hsend, hclose, hrekey, hle, hb, hlp, hcust,
      heff, hassets, hnext⟩ :=
      purchaseFromLister_some_spec caller appAddr pid shares payment st st' b p hp hcall
    exact ⟨hle, by rw [hlp]; exact alookup_aset_self _ _ _⟩
  · intro caller shares payment st p hp hlt
    exact purchaseFromLister_none_of_conflict caller appAddr pid shares payment st p hp hlt
  · omega
  · omega

/-- C2: `purchaseFromLister` succeeds only when the payment's amount is
exactly `shares * pricePerShare`, its receiver is the app (custody)
account, its sender is the caller, and its close-remainder-to and
rekey-to fields are the zero address; any payment violating any of these
conditions makes the call fail (`none`: no successor state, so the record
store is unchanged). -/
theorem purchase_payment_conditions
    (caller appAddr pid shares : Nat) (payment : PaymentTxn)
    (st : ChainState) (p : PropertyStruct)
    (hp : alookup st.listedProperties pid = some p) :
    (∀ b st', purchaseFromLister caller appAddr st pid shares payment = some (b, st') →
        payment.amount = shares * p.pricePerShare ∧
        payment.receiver = appAddr ∧
        payment.sender = caller ∧
        payment.closeRemainderTo = zeroAddress ∧
        payment.rekeyTo = zeroAddress) ∧
    ((payment.amount ≠ shares * p.pricePerShare ∨ payment.receiver ≠ appAddr ∨
        payment.sender ≠ caller ∨ payment.closeRemainderTo ≠ zeroAddress ∨
        payment.rekeyTo ≠ zeroAddress) →
      purchaseFromLister caller appAddr st pid shares payment = none) := by
  constructor
  · intro b st' h
    obtain ⟨_, _, hamt, hrecv, hsend, hclose, hrekey, _⟩ :=
      purchaseFromLister_some_spec caller appAddr pid shares payment st st' b p hp h
    exact ⟨hamt, hrecv, hsend, hclose, hrekey⟩
  · exact purchaseFromLister_none_of_payment_violation caller appAddr pid shares
      payment st p hp

/-- C3: `delistProperty` succeeds if and only if a record exists for
`propertyId`, the caller is the record's `ownerAddress`, and
`availableShares = totalShares`; on success exactly that record is
deleted and nothing else changes; failure produces no successor state. -/
theorem delist_conditions (caller pid : Nat) (st : ChainState) :
    (∀ st', delistProperty caller st pid = some st' →
        (∃ p, alookup st.listedProperties pid = some p ∧ caller = p.ownerAddress ∧
          p.availableShares = p.totalShares) ∧
        st'.listedProperties = aerase st.listedProperties pid ∧
        alookup st'.listedProperties pid = none ∧
        st'.assets = st.assets ∧ st'.custody = st.custody ∧
        st'.effects = st.effects ∧ st'.nextAssetId = st.nextAssetId) ∧
    ((∃ p, alookup st.listedProperties pid = some p ∧ caller = p.ownerAddress ∧
        p.availableShares = p.totalShares) →
      ∃ st', delistProperty caller st pid = some st') := by
  constructor
  · intro st' h
    obtain ⟨p, hp, hown, hav, hst⟩ := delistProperty_some_spec caller pid st st' h
    subst hst
    exact ⟨⟨p, hp, hown, hav⟩, rfl, alookup_aerase_self _ _, rfl, rfl, rfl, rfl⟩
  · rintro ⟨p, hp, hown, hav⟩
    exact ⟨_, delistProperty_some_of caller pid st p hp hown hav⟩

/-- C4: every successful `createPropertyListing` stores, under the
returned `propertyId`, a record with
`availableShares = totalShares = shares`, the given `pricePerShare`,
`propertyAssetId` equal to the returned id, and `ownerAddress` equal to
the caller; calls with `shares = 0` or `pricePerShare = 0` always fail,
producing no successor state (no record, no token). -/
theorem create_listing_record (caller appAddr : Nat) (st : ChainState)
    (mbrPayment : PaymentTxn) (addr : List Nat) (shares price : Nat) :
    (∀ pid st',
        createPropertyListing caller appAddr st mbrPayment addr shares price =
          some (pid, st') →
        0 < shares ∧ 0 < price ∧
        alookup st'.listedProperties pid = some
          { address := addr, totalShares := shares, availableShares := shares,
            pricePerShare := price, propertyAssetId := pid, ownerAddress := caller }) ∧
    (shares = 0 ∨ price = 0 →
      createPropertyListing caller appAddr st mbrPayment addr shares price = none) := by
  constructor
  · intro pid st' h
    obtain ⟨hsh, hpr, _, _, _, _, hpid, hlp, _⟩ :=
      createPropertyListing_some_spec caller appAddr st mbrPayment addr shares price
        pid st' h
    exact ⟨Nat.pos_of_ne_zero hsh, Nat.pos_of_ne_zero hpr,
      by rw [hlp]; exact alookup_aset_self _ _ _⟩
  · exact createPropertyListing_none_of_zero caller appAddr st mbrPayment addr shares price

/-- C5: the storage cost checked by `createPropertyListing` is the
deterministic affine function `2500 + 400 * (18 + 68 + length addr)` of
the address byte length, strictly increasing in that length; an MBR
payment below the cost fails the call; success requires amount at least
the cost; an amount at least the cost (with the other preconditions met,
and the cost representable in uint64) is accepted; and the surplus is not
tracked: two sufficient payments that agree on receiver and sender give
identical results regardless of their amounts. -/
theorem mbr_cost_spec (caller appAddr : Nat) (st : ChainState)
    (addr addr2 : List Nat) (shares price : Nat) (pay pay2 : PaymentTxn) :
    boxMbrCost addr = 2500 + 400 * (18 + 68 + addr.length) ∧
    (addr.length < addr2.length → boxMbrCost addr < boxMbrCost addr2) ∧
    (pay.amount < boxMbrCost addr →
      createPropertyListing caller appAddr st pay addr shares price = none) ∧
    (∀ pid st',
        createPropertyListing caller appAddr st pay addr shares price = some (pid, st') →
        boxMbrCost addr ≤ pay.amount) ∧
    (shares ≠ 0 → price ≠ 0 → boxMbrCost addr < U64 →
      boxMbrCost addr ≤ pay.amount → pay.receiver = appAddr → pay.sender = caller →
      ∃ r, createPropertyListing caller appAddr st pay addr shares price = some r) ∧
    (boxMbrCost addr ≤ pay.amount → boxMbrCost addr ≤ pay2.amount →
      pay.receiver = pay2.receiver → pay.sender = pay2.sender →
      createPropertyListing caller appAddr st pay addr shares price =
        createPropertyListing caller appAddr st pay2 addr shares price) := by
  refine ⟨rfl, ?_, ?_, ?_, ?_, ?_⟩
  · intro h
    simp only [boxMbrCost]
    omega
  · exact createPropertyListing_none_of_underpay caller appAddr st pay addr shares price
  · intro pid st' h
    exact (createPropertyListing_some_spec caller appAddr st pay addr shares price
      pid st' h).2.2.2.1
  · intro hsh hpr hof hamt hrecv hsend
    exact createPropertyListing_some_of caller appAddr st pay addr shares price
      hsh hpr hof hamt hrecv hsend
  · intro h1 h2 hrecv hsend
    by_cases hsh : shares = 0
    · rw [createPropertyListing_none_of_zero caller appAddr st pay addr shares price
        (Or.inl hsh),
        createPropertyListing_none_of_zero caller appAddr st pay2 addr shares price
        (Or.inl hsh)]
    by_cases hpr : price = 0
    · rw [createPropertyListing_none_of_zero caller appAddr st pay addr shares price
        (Or.inr hpr),
        createPropertyListing_none_of_zero caller appAddr st pay2 addr shares price
        (Or.inr hpr)]
    by_cases hof : U64 ≤ boxMbrCost addr
    · unfold createPropertyListing
      rw [if_neg hsh, if_neg hpr, if_pos hof, if_neg hsh, if_neg hpr, if_pos hof]
    · unfold createPropertyListing
      rw [if_neg hsh, if_neg hpr, if_neg hof, if_neg (Nat.not_lt_of_le h1),
        if_neg hsh, if_neg hpr, if_neg hof, if_neg (Nat.not_lt_of_le h2),
        hrecv, hsend]

/-- C6: every successful `createPropertyListing` mints an ASA, keyed by
the returned `propertyId`, with total supply `shares`, zero decimals, the
app (custody) account as both manager and reserve, and an asset name that
is exactly the first `min 32 (length addr)` bytes of the address (the
deterministic 32-byte truncation). -/
theorem create_asset_params (caller appAddr : Nat) (st : ChainState)
    (mbrPayment : PaymentTxn) (addr : List Nat) (shares price pid : Nat)
    (st' : ChainState)
    (h : createPropertyListing caller appAddr st mbrPayment addr shares price =
      some (pid, st')) :
    ∃ a, alookup st'.assets pid = some a ∧
      a.total = shares ∧ a.decimals = 0 ∧ a.manager = appAddr ∧ a.reserve = appAddr ∧
      a.assetName = addr.take 32 ∧ a.assetName = addr.take (min 32 addr.length) ∧
      a.assetName.length = min 32 addr.length := by
  obtain ⟨_, _, _, _, _, _, hpid, _, hassets, _⟩ :=
    createPropertyListing_some_spec caller appAddr st mbrPayment addr shares price
      pid st' h
  refine ⟨_, by rw [hassets]; exact alookup_aset_self _ _ _,
    rfl, rfl, rfl, rfl, rfl, ?_, ?_⟩
  · show addr.take 32 = addr.take (min 32 addr.length)
    rcases Nat.le_total 32 addr.length with hl | hl
    · rw [Nat.min_eq_left hl]
    · rw [Nat.min_eq_right hl, List.take_of_length_le hl, List.take_length]
  · exact List.length_take 32 addr

/-- C7: `getPropertyInfo` is a pure read: when a record exists for
`propertyId` it returns exactly the stored record, when none exists it
fails, and after a successful `delistProperty` on that id it fails. -/
theorem get_info_spec (caller pid : Nat) (st : ChainState) :
    (∀ p, alookup st.listedProperties pid = some p → getPropertyInfo st pid = some p) ∧
    (alookup st.listedProperties pid = none → getPropertyInfo st pid = none) ∧
    (∀ st', delistProperty caller st pid = some st' → getPropertyInfo st' pid = none) := by
  refine ⟨?_, ?_, ?_⟩
  · intro p hp
    simp [getPropertyInfo, hp]
  · intro hp
    simp [getPropertyInfo, hp]
  · intro st' h
    obtain ⟨p, hp, hown, hav, hst⟩ := delistProperty_some_spec caller pid st st' h
    subst hst
    simp [getPropertyInfo, alookup_aerase_self]

/-- C8: `purchaseFromLister` is the sole record mutator and it changes
only the `availableShares` field of the record keyed by `propertyId` —
`address`, `totalShares`, `pricePerShare`, `propertyAssetId` and
`ownerAddress` are unchanged and every other record is untouched; the
other operations never alter the fields of a differently-keyed record
(`delistProperty` and `createPropertyListing` leave all other keys
unchanged, and `getPropertyInfo` writes nothing). -/
theorem record_field_immutability
    (caller appAddr pid shares : Nat) (payment : PaymentTxn)
    (st st' : ChainState) (b : Bool) (p : PropertyStruct)
    (hp : alookup st.listedProperties pid = some p)
    (h : purchaseFromLister caller appAddr st pid shares payment = some (b, st')) :
    (∃ p', alookup st'.listedProperties pid = some p' ∧
        p'.address = p.address ∧ p'.totalShares = p.totalShares ∧
        p'.pricePerShare = p.pricePerShare ∧ p'.propertyAssetId = p.propertyAssetId ∧
        p'.ownerAddress = p.ownerAddress ∧
        p'.availableShares = p.availableShares - shares) ∧
    (∀ k, k ≠ pid → alookup st'.listedProperties k = alookup st.listedProperties k) ∧
    (∀ st2, delistProperty caller st pid = some st2 →
        ∀ k, k ≠ pid → alookup st2.listedProperties k = alookup st.listedProperties k) ∧
    (∀ mbr addr2 sh2 pr2 pid2 st2,
        createPropertyListing caller appAddr st mbr addr2 sh2 pr2 = some (pid2, st2) →
        ∀ k, k ≠ pid2 → alookup st2.listedProperties k = alookup st.listedProperties k) := by
  obtain ⟨hpos, hof, hamt, hrecv, hsend, hclose, hrekey, hle, hb, hlp, hcust,
    heff, hassets, hnext⟩ :=
    purchaseFromLister_some_spec caller appAddr pid shares payment st st' b p hp h
  refine ⟨⟨{ p with availableShares := p.availableShares - shares },
    by rw [hlp]; exact alookup_aset_self _ _ _,
    rfl, rfl, rfl, rfl, rfl, rfl⟩, ?_, ?_, ?_⟩
  · intro k hk
    rw [hlp]
    exact alookup_aset_ne _ _ _ _ hk
  · intro st2 h2 k hk
    obtain ⟨p2, hp2, _, _, hst⟩ := delistProperty_some_spec caller pid st st2 h2
    subst hst
    exact alookup_aerase_ne _ _ _ hk
  · intro mbr addr2 sh2 pr2 pid2 st2 h2 k hk
    obtain ⟨_, _, _, _, _, _, hpid2, hlp2, _⟩ :=
      createPropertyListing_some_spec caller appAddr st mbr addr2 sh2 pr2 pid2 st2 h2
    rw [hlp2]
    exact alookup_aset_ne _ _ _ _ hk

/-- C9: when the mathematical product `shares * pricePerShare` reaches
`2 ^ 64` the uint64 multiplication overflows and the whole
`purchaseFromLister` call fails with no state change, for every payment;
in particular a payment carrying the wrapped-around amount
`(shares * pricePerShare) % 2 ^ 64` is never accepted. -/
theorem purchase_overflow_fails
    (caller appAddr pid shares : Nat) (payment : PaymentTxn)
    (st : ChainState) (p : PropertyStruct)
    (hp : alookup st.listedProperties pid = some p)
    (hof : U64 ≤ shares * p.pricePerShare) :
    purchaseFromLister caller appAddr st pid shares payment = none ∧
    (∀ pay2 : PaymentTxn, pay2.amount = shares * p.pricePerShare % U64 →
      purchaseFromLister caller appAddr st pid shares pay2 = none) :=
  ⟨purchaseFromLister_none_of_overflow caller appAddr pid shares payment st p hp hof,
   fun pay2 _ =>
    purchaseFromLister_none_of_overflow caller appAddr pid shares pay2 st p hp hof⟩

/-- C10: a successful `delistProperty` removes only the record keyed by
`propertyId`: the asset registry and the app's custody holdings are
untouched (no token destroyed, no units transferred out of custody, no
inner transaction emitted) and every other record is unchanged. -/
theorem delist_frame (caller pid : Nat) (st st' : ChainState) (p : PropertyStruct)
    (hp : alookup st.listedProperties pid = some p)
    (h : delistProperty caller st pid = some st') :
    alookup st'.listedProperties pid = none ∧
    (∀ k, k ≠ pid → alookup st'.listedProperties k = alookup st.listedProperties k) ∧
    st'.assets = st.assets ∧
    st'.custody = st.custody ∧
    st'.effects = st.effects ∧
    alookup st'.assets p.propertyAssetId = alookup st.assets p.propertyAssetId ∧
    alookup st'.custody p.propertyAssetId = alookup st.custody p.propertyAssetId := by
  obtain ⟨p2, hp2, hown, hav, hst⟩ := delistProperty_some_spec caller pid st st' h
  subst hst
  exact ⟨alookup_aerase_self _ _, fun k hk => alookup_aerase_ne _ _ _ hk,
    rfl, rfl, rfl, rfl, rfl⟩

/-! ### Concrete example states for the witnesses -/

/-- Example address bytes. -/
def exAddr : List Nat := [49, 50, 51]

/-- Example listed record: 100 shares at price 5, asset id 7, owner 11. -/
def exProp : PropertyStruct :=
  { address := exAddr, totalShares := 100, availableShares := 100,
    pricePerShare := 5, propertyAssetId := 7, ownerAddress := 11 }

/-- Example ASA backing `exProp` (app account is 2). -/
def exAsset : AssetParams :=
  { assetName := exAddr, unitName := [80, 82, 79, 80], total := 100,
    decimals := 0, manager := 2, reserve := 2 }

/-- Example ledger state holding `exProp`. -/
def exState : ChainState :=
  { listedProperties := [(7, exProp)], assets := [(7, exAsset)],
    custody := [(7, 100)], effects := [], nextAssetId := 8 }

/-- A valid payment of 50 = 10 * 5 from caller 3 to the app account 2. -/
def exPayment : PaymentTxn :=
  { amount := 50, sender := 3, receiver := 2, closeRemainderTo := 0, rekeyTo := 0 }

/-- State after caller 3 buys 10 shares of property 7 in `exState`. -/
def exStateAfterPurchase : ChainState :=
  { listedProperties :=
      [(7, { address := exAddr, totalShares := 100, availableShares := 90,
             pricePerShare := 5, propertyAssetId := 7, ownerAddress := 11 })],
    assets := [(7, exAsset)],
    custody := [(7, 90)],
    effects := [Effect.assetTransfer 7 3 10, Effect.pay 11 50],
    nextAssetId := 8 }

/-- One purchase request: caller 3 buys 10 shares with `exPayment`. -/
def exReqs : List PurchaseReq :=
  [{ caller := 3, shares := 10, payment := exPayment }]

/-- An MBR payment of exactly `boxMbrCost [65, 66] = 37700` from 11 to 2. -/
def exMbrPayment : PaymentTxn :=
  { amount := 37700, sender := 11, receiver := 2, closeRemainderTo := 0, rekeyTo := 0 }

/-- State after owner 11 lists a second property (address bytes [65, 66],
50 shares at price 3) in `exState`; the new asset id is 8. -/
def exStateAfterCreate : ChainState :=
  { listedProperties :=
      [(7, exProp),
       (8, { address := [65, 66], totalShares := 50, availableShares := 50,
             pricePerShare := 3, propertyAssetId := 8, ownerAddress := 11 })],
    assets :=
      [(7, exAsset),
       (8, { assetName := [65, 66], unitName := [80, 82, 79, 80], total := 50,
             decimals := 0, manager := 2, reserve := 2 })],
    custody := [(7, 100), (8, 50)],
    effects := [],
    nextAssetId := 9 }

/-- State after owner 11 delists property 7 in `exState`. -/
def exStateAfterDelist : ChainState :=
  { listedProperties := [], assets := [(7, exAsset)], custody := [(7, 100)],
    effects := [], nextAssetId := 8 }

/-- A record whose price is so high that buying 4 shares overflows uint64:
`4 * 2 ^ 63 = 2 ^ 65 ≥ 2 ^ 64`. -/
def exOverflowProp : PropertyStruct :=
  { address := exAddr, totalShares := 100, availableShares := 100,
    pricePerShare := 2 ^ 63, propertyAssetId := 9, ownerAddress := 11 }

/-- Ledger state holding `exOverflowProp`. -/
def exOverflowState : ChainState :=
  { listedProperties := [(9, exOverflowProp)], assets := [],
    custody := [(9, 100)], effects := [], nextAssetId := 10 }

/-! ### Witnesses -/

/-- Witness for C1 at `exState` with one successful 10-share purchase. -/
theorem purchase_sequence_invariant_witness :
    alookup exState.listedProperties 7 = some exProp ∧
    exProp.availableShares ≤ exProp.totalShares ∧
    ((∀ caller shares payment st b st' p,
        alookup st.listedProperties 7 = some p →
        purchaseFromLister caller 2 st 7 shares payment = some (b, st') →
        shares ≤ p.availableShares ∧
        alookup st'.listedProperties 7 =
          some { p with availableShares := p.availableShares - shares }) ∧
     (∀ caller shares payment st p,
        alookup st.listedProperties 7 = some p →
        p.availableShares < shares →
        purchaseFromLister caller 2 st 7 shares payment = none) ∧
     (∃ pN, alookup (runPurchases 2 7 exState exReqs).1.listedProperties 7 = some pN ∧
        pN.totalShares = exProp.totalShares ∧
        pN.availableShares + (runPurchases 2 7 exState exReqs).2 =
          exProp.availableShares ∧
        pN.availableShares ≤ pN.totalShares) ∧
     (runPurchases 2 7 exState exReqs).2 ≤ exProp.totalShares) :=
  ⟨by decide, by decide,
   purchase_sequence_invariant 2 7 exState exProp exReqs (by decide) (by decide)⟩

/-- Witness for C2 at `exState` with the valid payment `exPayment`. -/
theorem purchase_payment_conditions_witness :
    alookup exState.listedProperties 7 = some exProp ∧
    ((∀ b st', purchaseFromLister 3 2 exState 7 10 exPayment = some (b, st') →
        exPayment.amount = 10 * exProp.pricePerShare ∧
        exPayment.receiver = 2 ∧
        exPayment.sender = 3 ∧
        exPayment.closeRemainderTo = zeroAddress ∧
        exPayment.rekeyTo = zeroAddress) ∧
     ((exPayment.amount ≠ 10 * exProp.pricePerShare ∨ exPayment.receiver ≠ 2 ∨
         exPayment.sender ≠ 3 ∨ exPayment.closeRemainderTo ≠ zeroAddress ∨
         exPayment.rekeyTo ≠ zeroAddress) →
       purchaseFromLister 3 2 exState 7 10 exPayment = none)) :=
  ⟨by decide, purchase_payment_conditions 3 2 7 10 exPayment exState exProp (by decide)⟩

/-- Witness for C6 at `exState`: listing address bytes [65, 66] with 50
shares at price 3 mints asset 8 with the claimed parameters. -/
theorem create_asset_params_witness :
    createPropertyListing 11 2 exState exMbrPayment [65, 66] 50 3 =
      some (8, exStateAfterCreate) ∧
    (∃ a, alookup exStateAfterCreate.assets 8 = some a ∧
      a.total = 50 ∧ a.decimals = 0 ∧ a.manager = 2 ∧ a.reserve = 2 ∧
      a.assetName = ([65, 66] : List Nat).take 32 ∧
      a.assetName = ([65, 66] : List Nat).take (min 32 ([65, 66] : List Nat).length) ∧
      a.assetName.length = min 32 ([65, 66] : List Nat).length) :=
  ⟨by decide,
   create_asset_params 11 2 exState exMbrPayment [65, 66] 50 3 8 exStateAfterCreate
     (by decide)⟩

/-- Witness for C8: the successful 10-share purchase in `exState` changes
only `availableShares` of record 7. -/
theorem record_field_immutability_witness :
    alookup exState.listedProperties 7 = some exProp ∧
    purchaseFromLister 3 2 exState 7 10 exPayment = some (true, exStateAfterPurchase) ∧
    ((∃ p', alookup exStateAfterPurchase.listedProperties 7 = some p' ∧
        p'.address = exProp.address ∧ p'.totalShares = exProp.totalShares ∧
        p'.pricePerShare = exProp.pricePerShare ∧
        p'.propertyAssetId = exProp.propertyAssetId ∧
        p'.ownerAddress = exProp.ownerAddress ∧
        p'.availableShares = exProp.availableShares - 10) ∧
     (∀ k, k ≠ 7 → alookup exStateAfterPurchase.listedProperties k =
        alookup exState.listedProperties k) ∧
     (∀ st2, delistProperty 3 exState 7 = some st2 →
        ∀ k, k ≠ 7 → alookup st2.listedProperties k = alookup exState.listedProperties k) ∧
     (∀ mbr addr2 sh2 pr2 pid2 st2,
        createPropertyListing 3 2 exState mbr addr2 sh2 pr2 = some (pid2, st2) →
        ∀ k, k ≠ pid2 →
          alookup st2.listedProperties k = alookup exState.listedProperties k)) :=
  ⟨by decide, by decide,
   record_field_immutability 3 2 7 10 exPayment exState exStateAfterPurchase true exProp
     (by decide) (by decide)⟩

/-- Witness for C9: buying 4 shares at price `2 ^ 63` overflows uint64
and fails for every payment, including the wrapped-around amount. -/
theorem purchase_overflow_fails_witness :
    alookup exOverflowState.listedProperties 9 = some exOverflowProp ∧
    U64 ≤ 4 * exOverflowProp.pricePerShare ∧
    (purchaseFromLister 3 2 exOverflowState 9 4 exPayment = none ∧
     (∀ pay2 : PaymentTxn, pay2.amount = 4 * exOverflowProp.pricePerShare % U64 →
        purchaseFromLister 3 2 exOverflowState 9 4 pay2 = none)) :=
  ⟨by decide, by decide,
   purchase_overflow_fails 3 2 9 4 exPayment exOverflowState exOverflowProp
     (by decide) (by decide)⟩

/-- Witness for C10: owner 11 delists property 7 in `exState`; only the
record disappears, the asset and custody are untouched. -/
theorem delist_frame_witness :
    alookup exState.listedProperties 7 = some exProp ∧
    delistProperty 11 exState 7 = some exStateAfterDelist ∧
    (alookup exStateAfterDelist.listedProperties 7 = none ∧
     (∀ k, k ≠ 7 → alookup exStateAfterDelist.listedProperties k =
        alookup exState.listedProperties k) ∧
     exStateAfterDelist.assets = exState.assets ∧
     exStateAfterDelist.custody = exState.custody ∧
     exStateAfterDelist.effects = exState.effects ∧
     alookup exStateAfterDelist.assets exProp.propertyAssetId =
       alookup exState.assets exProp.propertyAssetId ∧
     alookup exStateAfterDelist.custody exProp.propertyAssetId =
       alookup exState.custody exProp.propertyAssetId) :=
  ⟨by decide, by decide,
   delist_frame 11 7 exState exStateAfterDelist exProp (by decide) (by decide)⟩

end FractionalRealEstate
